import Mathlib

/-!
Verification of the tinyurl URL-shortening service (src/server.js, final
revision; schema in src/schema.sql and the CREATE TABLE statements in
server.js).

The service is embedded shallowly: the two relational tables (`urls`,
`click_logs`) become lists of rows inside a `DB` state, each Express
handler becomes a function `DB → inputs → Resp × DB`, and the SQL
statements it issues become the corresponding list operations.  External
collaborators are parameterised: the `isWebUri` check of the external
`valid-url` library is a function argument, the three random bytes fed
to the hex rendering of `crypto.randomBytes(3)` are arguments of
`generateShortCode`, and the database clock `NOW()` is a `now : Nat`
argument.  Postgres `ILIKE` pattern matching (used by the list endpoint)
is modelled by `likeMatch` below.
-/

namespace TinyUrl

/-- A row of the `urls` table: id SERIAL, short_code TEXT UNIQUE,
original_url TEXT, created_at TIMESTAMPTZ, click_count INT (starts at 0),
last_clicked_at TIMESTAMPTZ nullable. Timestamps are modelled as `Nat`. -/
structure UrlRow where
  id : Nat
  short_code : String
  original_url : String
  created_at : Nat
  click_count : Int
  last_clicked_at : Option Nat
deriving DecidableEq, Repr

/-- A row of the `click_logs` table: id SERIAL, url_id referencing
urls(id) ON DELETE CASCADE, click_time TIMESTAMPTZ, user_agent TEXT,
ip_address TEXT. -/
structure ClickLogRow where
  id : Nat
  url_id : Nat
  click_time : Nat
  user_agent : String
  ip_address : String
deriving DecidableEq, Repr

/-- The database state: the two tables plus the SERIAL counters that
assign the next surrogate id on insert. -/
structure DB where
  urls : List UrlRow
  click_logs : List ClickLogRow
  nextUrlId : Nat
  nextClickId : Nat
deriving DecidableEq, Repr

/-- The HTTP responses the handlers produce, by status code and payload:
201 created, 200 list / stats / message, 400, 409, 404, 302 redirect
(both the explicit 302 redirect and the redirect to /404), 500. -/
inductive Resp where
  | created (shortUrl : String) (row : UrlRow)
  | listOk (rows : List UrlRow)
  | statsOk (url : UrlRow) (clicks : List ClickLogRow)
  | messageOk (message : String)
  | badRequest (error : String)
  | conflict (error : String)
  | notFound (error : String)
  | redirect302 (location : String)
  | serverError (error : String)
deriving DecidableEq, Repr

/-- HTTP status code of a response. -/
def Resp.status : Resp → Nat
  | .created _ _ => 201
  | .listOk _ => 200
  | .statsOk _ _ => 200
  | .messageOk _ => 200
  | .badRequest _ => 400
  | .conflict _ => 409
  | .notFound _ => 404
  | .redirect302 _ => 302
  | .serverError _ => 500

/-- Which database write of the redirect handler fails, modelling a
thrown `pool.query` error caught by the `catch` block of the handler:
`noFault` = both writes succeed, `failUpdate` = the UPDATE throws (no
state change), `failLog` = the UPDATE succeeds but the INSERT into
click_logs throws. -/
inductive DbFault where
  | noFault
  | failUpdate
  | failLog
deriving DecidableEq, Repr

/-- One hex digit, lowercase, as produced by the hex rendering of a
Node Buffer: digits 0-9 then letters a-f. -/
def hexDigit (n : Nat) : Char :=
  if n < 10 then Char.ofNat (48 + n) else Char.ofNat (87 + n)

/-- One byte rendered as two lowercase hex characters. -/
def byteToHex (b : Nat) : String :=
  String.mk [hexDigit (b / 16), hexDigit (b % 16)]

/-- The code generator, rendering `crypto.randomBytes(3)` as a
lowercase hex string, with the three random bytes made explicit
arguments. -/
def generateShortCode (b0 b1 b2 : Nat) : String :=
  byteToHex b0 ++ byteToHex b1 ++ byteToHex b2

/-- The code validator, testing the anchored pattern of 6 to 8
alphanumeric characters: each character an ASCII letter or digit. -/
def isValidCode (code : String) : Bool :=
  6 ≤ code.length && code.length ≤ 8 && code.data.all Char.isAlphanum

/-- The ECMAScript WhiteSpace and LineTerminator characters stripped
by `String.prototype.trim()`: TAB, LF, VT (U+000B), FF (U+000C), CR,
SP, NBSP (U+00A0), OGHAM SPACE (U+1680), the Zs range U+2000-U+200A,
LS (U+2028), PS (U+2029), NNBSP (U+202F), MMSP (U+205F), IDEOGRAPHIC
SPACE (U+3000) and ZWNBSP/BOM (U+FEFF). -/
def jsWhitespace (c : Char) : Bool :=
  c == '\t' || c == '\n' || c.toNat == 0x0B || c.toNat == 0x0C ||
  c == '\r' || c == ' ' || c.toNat == 0xA0 || c.toNat == 0x1680 ||
  (0x2000 ≤ c.toNat && c.toNat ≤ 0x200A) ||
  c.toNat == 0x2028 || c.toNat == 0x2029 || c.toNat == 0x202F ||
  c.toNat == 0x205F || c.toNat == 0x3000 || c.toNat == 0xFEFF

/-- JavaScript `String.prototype.trim()`: drop ECMAScript whitespace
from both ends. -/
def jsTrim (s : String) : String :=
  String.mk (((s.data.dropWhile jsWhitespace).reverse.dropWhile
    jsWhitespace).reverse)

/-- Code resolution, `customCode ? customCode.trim() : generateShortCode()`
under JavaScript truthiness: an absent or empty-string customCode falls
back to the generated code. -/
def resolveCode (customCode : Option String) (gen : String) : String :=
  match customCode with
  | none => gen
  | some c => if c.isEmpty then gen else jsTrim c

/-- The lookup `SELECT * FROM urls WHERE short_code = $1`, taking
the first returned row: the first row whose short_code equals the
argument. -/
def selectUrlByCode (db : DB) (code : String) : Option UrlRow :=
  db.urls.find? (fun r => r.short_code == code)

/-- The statement `UPDATE urls SET click_count = click_count + 1,
last_clicked_at = NOW() WHERE id = $1`. -/
def updateClick (db : DB) (urlId : Nat) (now : Nat) : DB :=
  { db with urls := db.urls.map (fun r =>
      if r.id = urlId then
        { r with click_count := r.click_count + 1, last_clicked_at := some now }
      else r) }

/-- The statement `INSERT INTO click_logs (url_id, user_agent,
ip_address) VALUES ($1, $2, $3)` with click_time defaulting to NOW(). -/
def insertClickLog (db : DB) (urlId : Nat) (ua ip : String) (now : Nat) : DB :=
  { db with
    click_logs := db.click_logs ++
      [{ id := db.nextClickId, url_id := urlId, click_time := now,
         user_agent := ua, ip_address := ip }],
    nextClickId := db.nextClickId + 1 }

/-- Does `f` accept some suffix of the list (the list itself
included, the empty suffix last)? -/
def suffixAny (f : List Char → Bool) : List Char → Bool
  | [] => f []
  | c :: cs => f (c :: cs) || suffixAny f cs

/-- Postgres LIKE pattern matching over characters (default escape
backslash): `%` matches any sequence (the rest of the pattern must
match some suffix), `_` any single character, `\x` the literal
character x; any other pattern character matches itself.  A pattern
ending in a bare escape character matches nothing. -/
def likeMatch : List Char → List Char → Bool
  | [], cs => cs.isEmpty
  | p :: ps, cs =>
    if p = '%' then
      suffixAny (fun cs2 => likeMatch ps cs2) cs
    else if p = '\\' then
      (match ps with
       | [] => false
       | q :: ps2 =>
         match cs with
         | [] => false
         | c :: cs2 => q == c && likeMatch ps2 cs2)
    else if p = '_' then
      (match cs with
       | [] => false
       | _ :: cs2 => likeMatch ps cs2)
    else
      (match cs with
       | [] => false
       | c :: cs2 => p == c && likeMatch ps cs2)

/-- Case-insensitive LIKE (the ILIKE operator), modelled by folding
both the pattern and the string to lowercase. -/
def ilike (s pat : String) : Bool :=
  likeMatch (pat.data.map Char.toLower) (s.data.map Char.toLower)

/-- Insert a url row into a list sorted by `created_at` descending. -/
def insertDesc (r : UrlRow) : List UrlRow → List UrlRow
  | [] => [r]
  | x :: xs => if x.created_at ≤ r.created_at then r :: x :: xs else x :: insertDesc r xs

/-- Ordering `ORDER BY created_at DESC` on url rows (insertion sort). -/
def sortDesc : List UrlRow → List UrlRow
  | [] => []
  | x :: xs => insertDesc x (sortDesc xs)

/-- Insert a click-log row into a list sorted by `click_time`
descending. -/
def insertClickDesc (l : ClickLogRow) : List ClickLogRow → List ClickLogRow
  | [] => [l]
  | x :: xs => if x.click_time ≤ l.click_time then l :: x :: xs else x :: insertClickDesc l xs

/-- Ordering `ORDER BY click_time DESC` on click-log rows (insertion
sort). -/
def sortClicksDesc : List ClickLogRow → List ClickLogRow
  | [] => []
  | x :: xs => insertClickDesc x (sortClicksDesc xs)

/-- POST /api/links (server.js lines 343-369).  `isWebUri` stands for
the external `valid-url` library, `gen` for the freshly generated code,
`now` for NOW().  Validates the URL, resolves the code, rejects an
invalid code (400), rejects an existing code (409), otherwise inserts
the new mapping with click_count 0 and returns 201. -/
def createLink (isWebUri : String → Bool) (baseUrl : String) (db : DB)
    (originalUrl customCode : Option String) (gen : String) (now : Nat) :
    Resp × DB :=
  match originalUrl with
  | none => (.badRequest "Invalid URL", db)
  | some u =>
    if u.isEmpty || !(isWebUri u) then (.badRequest "Invalid URL", db)
    else
      let shortCode := resolveCode customCode gen
      if !(isValidCode shortCode) then
        (.badRequest "Code must be 6-8 alphanumeric characters", db)
      else
        match selectUrlByCode db shortCode with
        | some _ => (.conflict "Short code already exists", db)
        | none =>
          let row : UrlRow :=
            { id := db.nextUrlId, short_code := shortCode, original_url := u,
              created_at := now, click_count := 0, last_clicked_at := none }
          (.created (baseUrl ++ "/" ++ shortCode) row,
           { db with urls := db.urls ++ [row], nextUrlId := db.nextUrlId + 1 })

/-- GET /api/links (server.js lines 376-391): filter by
`short_code ILIKE '%'||search||'%' OR original_url ILIKE ...`, ordered
by created_at descending.  `searchQ = none` models an absent query
parameter, which the handler replaces by the empty string. -/
def listLinks (db : DB) (searchQ : Option String) : Resp × DB :=
  let search := match searchQ with
    | none => ""
    | some s => if s.isEmpty then "" else s
  let pat := "%" ++ search ++ "%"
  (.listOk (sortDesc (db.urls.filter (fun r =>
      ilike r.short_code pat || ilike r.original_url pat))), db)

/-- GET /api/links/:shortCode (server.js lines 397-416): the mapping
plus its click logs ordered by click_time descending, or 404. -/
def getLink (db : DB) (shortCode : String) : Resp × DB :=
  match selectUrlByCode db shortCode with
  | none => (.notFound "Short code not found", db)
  | some urlData =>
    (.statsOk urlData
      (sortClicksDesc (db.click_logs.filter (fun l => l.url_id == urlData.id))),
     db)

/-- DELETE /api/links/:shortCode (server.js lines 422-431):
`DELETE FROM urls WHERE short_code = $1 RETURNING *` with the
ON DELETE CASCADE of click_logs, then 404 if nothing was returned,
else a confirmation message. -/
def deleteLink (db : DB) (shortCode : String) : Resp × DB :=
  let returned := db.urls.filter (fun r => r.short_code == shortCode)
  let db2 : DB :=
    { db with
      urls := db.urls.filter (fun r => !(r.short_code == shortCode)),
      click_logs := db.click_logs.filter (fun l =>
        !(returned.any (fun r => r.id == l.url_id))) }
  if returned.length == 0 then (.notFound "Short code not found", db2)
  else (.messageOk ("Short code " ++ shortCode ++ " deleted successfully"), db2)

/-- GET /:shortCode (server.js lines 437-457): look the code up, on a
miss redirect to /404; otherwise run the UPDATE and the click-log
INSERT and redirect 302 to the original url.  `fault` injects a failure
of either write (the catch block answers 500 "Server error"). -/
def redirectHandler (db : DB) (shortCode ua ip : String) (now : Nat)
    (fault : DbFault) : Resp × DB :=
  match selectUrlByCode db shortCode with
  | none => (.redirect302 "/404", db)
  | some urlData =>
    match fault with
    | .failUpdate => (.serverError "Server error", db)
    | .failLog => (.serverError "Server error", updateClick db urlData.id now)
    | .noFault =>
      (.redirect302 urlData.original_url,
       insertClickLog (updateClick db urlData.id now) urlData.id ua ip now)

/-- The row update applied by the UPDATE statement of the redirect. -/
def bumpRow (rid : Nat) (now : Nat) (x : UrlRow) : UrlRow :=
  if x.id = rid then
    { x with click_count := x.click_count + 1, last_clicked_at := some now }
  else x

/-- A character that is not special to SQL LIKE: not `%`, `_` or the
escape backslash. -/
def metaFree (c : Char) : Bool :=
  !(c == '%' || c == '_' || c == '\\')

/-- Is the first list an initial segment of the second? -/
def startsList : List Char → List Char → Bool
  | [], _ => true
  | _ :: _, [] => false
  | a :: as, b :: bs => a == b && startsList as bs

/-- Does the first list occur contiguously somewhere in the second? -/
def subList (t : List Char) : List Char → Bool
  | [] => startsList t []
  | c :: cs => startsList t (c :: cs) || subList t cs

/-- Written from the words of the spec, for comparison with the
`ilike` filter of the code: "contains the search term as a
case-insensitive substring". -/
def containsCI (hay term : String) : Bool :=
  subList (term.data.map Char.toLower) (hay.data.map Char.toLower)


/-- Concrete one-row database used by the witnesses and the
counterexample below. -/
def rowA : UrlRow :=
  { id := 1, short_code := "abcdef", original_url := "https://e.com",
    created_at := 0, click_count := 0, last_clicked_at := none }

def dbA : DB := { urls := [rowA], click_logs := [], nextUrlId := 2, nextClickId := 1 }

def dbEmpty : DB := { urls := [], click_logs := [], nextUrlId := 1, nextClickId := 1 }

/-! ### Helper lemmas -/

/-- A lookup returning `none` means no row carries the code. -/
theorem selectUrlByCode_eq_none {db : DB} {code : String}
    (h : selectUrlByCode db code = none) :
    ∀ r ∈ db.urls, r.short_code ≠ code := by
  intro r hr
  have := List.find?_eq_none.mp h r hr
  simpa using this

/-! ### C10: Get and List are read-only -/

/-- C10: Get (GET /api/links/:code) and List (GET /api/links) leave both
the Mapping store and the Click Log store exactly as they were, in every
outcome. -/
theorem getLink_listLinks_readonly (db : DB) (code : String) (searchQ : Option String) :
    (getLink db code).2 = db ∧ (listLinks db searchQ).2 = db := by
  constructor
  · cases h : selectUrlByCode db code <;> simp [getLink, h]
  · rfl

/-! ### C3: redirect on a missing code changes nothing -/

/-- C3: a redirect request whose code names no Mapping leaves both
stores unchanged and answers with a redirect to the /404 page, whatever
the (unreached) write-fault injection says. -/
theorem redirect_missing_code (db : DB) (code ua ip : String) (now : Nat)
    (fault : DbFault) (h : selectUrlByCode db code = none) :
    redirectHandler db code ua ip now fault = (.redirect302 "/404", db) := by
  simp [redirectHandler, h]

/-- Witness for C3 at a concrete empty database. -/
theorem redirect_missing_code_witness :
    selectUrlByCode dbEmpty "zzzzzz" = none ∧
      redirectHandler dbEmpty "zzzzzz" "agent" "1.2.3.4" 5 .noFault =
        (.redirect302 "/404", dbEmpty) :=
  ⟨rfl, redirect_missing_code dbEmpty "zzzzzz" "agent" "1.2.3.4" 5 .noFault rfl⟩

/-! ### C1: create on an existing code conflicts and never overwrites -/

/-- C1: when the resolved short code already names an existing Mapping,
Create answers 409 with the store untouched; and every Create preserves
the global uniqueness of short codes. -/
theorem create_conflict_preserves (f : String → Bool) (baseUrl : String)
    (db : DB) (u : String) (cc : Option String) (gen : String) (now : Nat)
    (m : UrlRow) (hu : u.isEmpty = false) (hweb : f u = true)
    (hvalid : isValidCode (resolveCode cc gen) = true)
    (hex : selectUrlByCode db (resolveCode cc gen) = some m) :
    createLink f baseUrl db (some u) cc gen now =
      (.conflict "Short code already exists", db) ∧
    (Resp.conflict "Short code already exists").status = 409 ∧
    ∀ (g : String → Bool) (b : String) (db2 : DB) (ou oc : Option String)
      (g2 : String) (n2 : Nat),
      (db2.urls.map (fun r => r.short_code)).Nodup →
      (((createLink g b db2 ou oc g2 n2).2).urls.map (fun r => r.short_code)).Nodup := by
  refine ⟨?_, rfl, ?_⟩
  · simp [createLink, hu, hweb, hvalid, hex]
  · intro g b db2 ou oc g2 n2 hnd
    cases ou with
    | none => simpa [createLink] using hnd
    | some u2 =>
      by_cases h1 : (u2.isEmpty || !(g u2)) = true
      · simpa [createLink, h1] using hnd
      · by_cases h2 : isValidCode (resolveCode oc g2) = true
        · cases hex2 : selectUrlByCode db2 (resolveCode oc g2) with
          | some _ => simpa [createLink, h1, h2, hex2] using hnd
          | none =>
            have hnot : ∀ r ∈ db2.urls, r.short_code ≠ resolveCode oc g2 :=
              selectUrlByCode_eq_none hex2
            simp [createLink, h1, h2, hex2, List.nodup_append, hnd]
            intro x hx hcontra
            exact hnot x hx hcontra
        · simp only [Bool.not_eq_true] at h2
          simpa [createLink, h1, h2] using hnd

/-- Witness for C1: creating `abcdef` over `dbA` (which already holds
`abcdef`) conflicts and leaves the store as it was. -/
theorem create_conflict_preserves_witness :
    ("https://x.org".isEmpty = false) ∧
    isValidCode (resolveCode (some "abcdef") "ffffff") = true ∧
    selectUrlByCode dbA (resolveCode (some "abcdef") "ffffff") = some rowA ∧
    (createLink (fun _ => true) "http://localhost:3000" dbA (some "https://x.org")
        (some "abcdef") "ffffff" 7 =
      (.conflict "Short code already exists", dbA) ∧
    (Resp.conflict "Short code already exists").status = 409 ∧
    ∀ (g : String → Bool) (b : String) (db2 : DB) (ou oc : Option String)
      (g2 : String) (n2 : Nat),
      (db2.urls.map (fun r => r.short_code)).Nodup →
      (((createLink g b db2 ou oc g2 n2).2).urls.map (fun r => r.short_code)).Nodup) :=
  ⟨by decide, by decide, by decide,
   create_conflict_preserves (fun _ => true) "http://localhost:3000" dbA
     "https://x.org" (some "abcdef") "ffffff" 7 rowA (by decide) rfl
     (by decide) (by decide)⟩

/-! ### C5: validation failures answer 400 before any store access -/

/-- C5: Create answers 400 with the store untouched whenever the
original URL is missing or fails the web-URI check, or a (truthy)
supplied custom code is invalid after trimming; moreover the response
in these cases does not depend on the store at all. -/
theorem create_validation_rejects (f : String → Bool) (baseUrl : String)
    (db : DB) (originalUrl customCode : Option String) (gen : String) (now : Nat)
    (hbad : originalUrl = none ∨
      (∃ u, originalUrl = some u ∧ (u.isEmpty || !(f u)) = true) ∨
      (∃ u c, originalUrl = some u ∧ u.isEmpty = false ∧ f u = true ∧
        customCode = some c ∧ c.isEmpty = false ∧ isValidCode (jsTrim c) = false)) :
    ((createLink f baseUrl db originalUrl customCode gen now).1).status = 400 ∧
    (createLink f baseUrl db originalUrl customCode gen now).2 = db ∧
    ∀ db2 : DB, (createLink f baseUrl db2 originalUrl customCode gen now).1 =
      (createLink f baseUrl db originalUrl customCode gen now).1 := by
  rcases hbad with rfl | ⟨u, rfl, h1⟩ | ⟨u, c, rfl, hu, hf, rfl, hc, hcode⟩
  · exact ⟨rfl, rfl, fun _ => rfl⟩
  · refine ⟨?_, ?_, ?_⟩ <;> intros <;> simp [createLink, h1, Resp.status]
  · have hres : resolveCode (some c) gen = jsTrim c := by simp [resolveCode, hc]
    refine ⟨?_, ?_, ?_⟩ <;> intros <;>
      simp [createLink, hu, hf, hres, hcode, Resp.status]

/-- Witness for C5 at a concrete rejected URL. -/
theorem create_validation_rejects_witness :
    ((createLink (fun _ => false) "b" dbA (some "notaurl") none "abcdef" 3).1).status = 400 ∧
    (createLink (fun _ => false) "b" dbA (some "notaurl") none "abcdef" 3).2 = dbA ∧
    ∀ db2 : DB, (createLink (fun _ => false) "b" db2 (some "notaurl") none "abcdef" 3).1 =
      (createLink (fun _ => false) "b" dbA (some "notaurl") none "abcdef" 3).1 :=
  create_validation_rejects (fun _ => false) "b" dbA (some "notaurl") none "abcdef" 3
    (Or.inr (Or.inl ⟨"notaurl", rfl, by decide⟩))

/-! ### C9: a blank (whitespace-only) custom code is rejected, never replaced -/

/-- C9: a non-empty custom code made of whitespace trims to the empty
string and is rejected with the 400 invalid-code error, for every value
of the generated code — the generator is never substituted for a
truthy customCode. -/
theorem create_blank_custom_code (f : String → Bool) (baseUrl : String)
    (db : DB) (u c gen : String) (now : Nat)
    (hu : u.isEmpty = false) (hweb : f u = true)
    (hc : c.isEmpty = false) (hws : c.data.all jsWhitespace = true) :
    jsTrim c = "" ∧
    createLink f baseUrl db (some u) (some c) gen now =
      (.badRequest "Code must be 6-8 alphanumeric characters", db) := by
  have htrim : jsTrim c = "" := by
    have hdrop : c.data.dropWhile jsWhitespace = [] :=
      List.dropWhile_eq_nil_iff.mpr (fun x hx => by
        exact List.all_eq_true.mp hws x hx)
    simp [jsTrim, hdrop]
  refine ⟨htrim, ?_⟩
  have hres : resolveCode (some c) gen = jsTrim c := by simp [resolveCode, hc]
  have hcode : isValidCode (jsTrim c) = false := by rw [htrim]; rfl
  simp [createLink, hu, hweb, hres, hcode]

/-- Witness for C9 with a custom code of spaces, a vertical tab and a
no-break space — the latter two are JS whitespace beyond the ASCII
four. -/
theorem create_blank_custom_code_witness :
    (" \u000B\u00A0".isEmpty = false) ∧
    (" \u000B\u00A0".data.all jsWhitespace = true) ∧
    (jsTrim " \u000B\u00A0" = "" ∧
      createLink (fun _ => true) "b" dbA (some "https://x.org")
          (some " \u000B\u00A0") "abcdef" 3 =
        (.badRequest "Code must be 6-8 alphanumeric characters", dbA)) :=
  ⟨by decide, by decide,
   create_blank_custom_code (fun _ => true) "b" dbA "https://x.org" " \u000B\u00A0"
     "abcdef" 3 (by decide) rfl (by decide) (by decide)⟩

/-! ### C8: the generator always yields a valid 6-hex-char code -/

/-- Each hex digit of a nibble is a lowercase hex character, hence
alphanumeric. -/
theorem hexDigit_spec (n : Nat) (h : n < 16) :
    (('0' ≤ hexDigit n ∧ hexDigit n ≤ '9') ∨
      ('a' ≤ hexDigit n ∧ hexDigit n ≤ 'f')) ∧
    (hexDigit n).isAlphanum = true := by
  interval_cases n <;> exact ⟨by decide, by decide⟩

theorem generateShortCode_data (b0 b1 b2 : Nat) :
    (generateShortCode b0 b1 b2).data =
      [hexDigit (b0 / 16), hexDigit (b0 % 16), hexDigit (b1 / 16),
       hexDigit (b1 % 16), hexDigit (b2 / 16), hexDigit (b2 % 16)] := rfl

/-- C8: for every 3-byte random input the generated code is exactly 6
lowercase hexadecimal characters, passes `isValidCode`, and therefore a
Create without a custom code can never hit the invalid-code 400. -/
theorem generateShortCode_valid (b0 b1 b2 : Nat)
    (h0 : b0 < 256) (h1 : b1 < 256) (h2 : b2 < 256) :
    (generateShortCode b0 b1 b2).length = 6 ∧
    (∀ c ∈ (generateShortCode b0 b1 b2).data,
      ('0' ≤ c ∧ c ≤ '9') ∨ ('a' ≤ c ∧ c ≤ 'f')) ∧
    isValidCode (generateShortCode b0 b1 b2) = true ∧
    ∀ (f : String → Bool) (baseUrl : String) (db : DB) (u : String) (now : Nat),
      (createLink f baseUrl db (some u) none (generateShortCode b0 b1 b2) now).1 ≠
        Resp.badRequest "Code must be 6-8 alphanumeric characters" := by
  have hb : ∀ b : Nat, b < 256 → b / 16 < 16 ∧ b % 16 < 16 := by
    intro b hb; omega
  have hlen : (generateShortCode b0 b1 b2).length = 6 := by
    show (generateShortCode b0 b1 b2).data.length = 6
    rw [generateShortCode_data]
    rfl
  have hmem : ∀ c ∈ (generateShortCode b0 b1 b2).data,
      ('0' ≤ c ∧ c ≤ '9') ∨ ('a' ≤ c ∧ c ≤ 'f') := by
    intro c hc
    rw [generateShortCode_data] at hc
    simp only [List.mem_cons, List.not_mem_nil, or_false] at hc
    rcases hc with rfl | rfl | rfl | rfl | rfl | rfl
    · exact (hexDigit_spec _ (hb b0 h0).1).1
    · exact (hexDigit_spec _ (hb b0 h0).2).1
    · exact (hexDigit_spec _ (hb b1 h1).1).1
    · exact (hexDigit_spec _ (hb b1 h1).2).1
    · exact (hexDigit_spec _ (hb b2 h2).1).1
    · exact (hexDigit_spec _ (hb b2 h2).2).1
  have hvalid : isValidCode (generateShortCode b0 b1 b2) = true := by
    simp only [isValidCode, hlen, generateShortCode_data, Bool.and_eq_true,
      decide_eq_true_eq, List.all_cons, List.all_nil]
    refine ⟨⟨by omega, by omega⟩, ?_⟩
    simp [(hexDigit_spec _ (hb b0 h0).1).2, (hexDigit_spec _ (hb b0 h0).2).2,
      (hexDigit_spec _ (hb b1 h1).1).2, (hexDigit_spec _ (hb b1 h1).2).2,
      (hexDigit_spec _ (hb b2 h2).1).2, (hexDigit_spec _ (hb b2 h2).2).2]
  refine ⟨hlen, hmem, hvalid, ?_⟩
  intro f baseUrl db u now
  by_cases hbadu : (u.isEmpty || !(f u)) = true
  · simp [createLink, hbadu]
  · have hres : resolveCode none (generateShortCode b0 b1 b2) =
        generateShortCode b0 b1 b2 := rfl
    cases hex : selectUrlByCode db (generateShortCode b0 b1 b2) with
    | none => simp [createLink, hbadu, hres, hvalid, hex]
    | some m => simp [createLink, hbadu, hres, hvalid, hex]

/-- Witness for C8 at the bytes (0, 255, 171). -/
theorem generateShortCode_valid_witness :
    (0 : Nat) < 256 ∧ (255 : Nat) < 256 ∧ (171 : Nat) < 256 ∧
    ((generateShortCode 0 255 171).length = 6 ∧
    (∀ c ∈ (generateShortCode 0 255 171).data,
      ('0' ≤ c ∧ c ≤ '9') ∨ ('a' ≤ c ∧ c ≤ 'f')) ∧
    isValidCode (generateShortCode 0 255 171) = true ∧
    ∀ (f : String → Bool) (baseUrl : String) (db : DB) (u : String) (now : Nat),
      (createLink f baseUrl db (some u) none (generateShortCode 0 255 171) now).1 ≠
        Resp.badRequest "Code must be 6-8 alphanumeric characters") :=
  ⟨by decide, by decide, by decide,
   generateShortCode_valid 0 255 171 (by decide) (by decide) (by decide)⟩

/-! ### C2 and C7: the redirect handler -/

/-- Lookup by short code commutes with a map that preserves short
codes. -/
theorem find?_map_short_code (g : UrlRow → UrlRow)
    (hg : ∀ x, (g x).short_code = x.short_code) (l : List UrlRow) (code : String) :
    (l.map g).find? (fun r => r.short_code == code) =
      (l.find? (fun r => r.short_code == code)).map g := by
  induction l with
  | nil => rfl
  | cons x xs ih =>
    simp only [List.map_cons]
    rcases hx : (x.short_code == code) with _ | _
    · rw [List.find?_cons_of_neg _ (by simp [hg, hx]),
        List.find?_cons_of_neg _ (by simp [hx]), ih]
    · rw [List.find?_cons_of_pos _ (by simp [hg, hx]),
        List.find?_cons_of_pos _ (by simp [hx])]
      rfl

theorem updateClick_urls (db : DB) (rid now : Nat) :
    (updateClick db rid now).urls = db.urls.map (bumpRow rid now) := rfl

theorem selectUrlByCode_updateClick (db : DB) (code : String) (r : UrlRow)
    (now : Nat) (hr : selectUrlByCode db code = some r) :
    selectUrlByCode (updateClick db r.id now) code =
      some { r with click_count := r.click_count + 1, last_clicked_at := some now } := by
  show (db.urls.map (bumpRow r.id now)).find? (fun x => x.short_code == code) = _
  rw [find?_map_short_code (bumpRow r.id now)
    (fun x => by unfold bumpRow; split <;> rfl)]
  rw [show db.urls.find? (fun x => x.short_code == code) = some r from hr]
  simp [bumpRow]

/-- C2: a redirect on an existing code answers 302 to the stored
original URL, bumps the click_count of that Mapping by exactly one, sets
last_clicked_at to now (not below its previous value), appends exactly
one Click Log Entry referencing the id of the Mapping, and leaves every
other Mapping in place. -/
theorem redirect_existing_code (db : DB) (code ua ip : String) (now : Nat)
    (r : UrlRow) (hr : selectUrlByCode db code = some r)
    (hclock : ∀ t, r.last_clicked_at = some t → t ≤ now) :
    (redirectHandler db code ua ip now .noFault).1 = .redirect302 r.original_url ∧
    (Resp.redirect302 r.original_url).status = 302 ∧
    selectUrlByCode (redirectHandler db code ua ip now .noFault).2 code =
      some { r with click_count := r.click_count + 1, last_clicked_at := some now } ∧
    (∀ t t2, r.last_clicked_at = some t →
      ({ r with click_count := r.click_count + 1,
                last_clicked_at := some now } : UrlRow).last_clicked_at = some t2 →
        t ≤ t2) ∧
    (redirectHandler db code ua ip now .noFault).2.click_logs =
      db.click_logs ++ [{ id := db.nextClickId, url_id := r.id, click_time := now,
                          user_agent := ua, ip_address := ip }] ∧
    ∀ x ∈ db.urls, x.id ≠ r.id → x ∈ (redirectHandler db code ua ip now .noFault).2.urls := by
  have hout : redirectHandler db code ua ip now .noFault =
      (.redirect302 r.original_url,
       insertClickLog (updateClick db r.id now) r.id ua ip now) := by
    simp [redirectHandler, hr]
  rw [hout]
  refine ⟨rfl, rfl, ?_, ?_, rfl, ?_⟩
  · exact selectUrlByCode_updateClick db code r now hr
  · intro t t2 ht ht2
    have : t2 = now := by simpa using ht2.symm
    exact this ▸ hclock t ht
  · intro x hx hid
    show x ∈ db.urls.map (bumpRow r.id now)
    exact List.mem_map.mpr ⟨x, hx, by simp [bumpRow, hid]⟩

/-- Witness for C2: a click on `abcdef` in the one-row database. -/
theorem redirect_existing_code_witness :
    selectUrlByCode dbA "abcdef" = some rowA ∧
    ((redirectHandler dbA "abcdef" "agent" "1.2.3.4" 9 .noFault).1 =
       .redirect302 rowA.original_url ∧
    (Resp.redirect302 rowA.original_url).status = 302 ∧
    selectUrlByCode (redirectHandler dbA "abcdef" "agent" "1.2.3.4" 9 .noFault).2 "abcdef" =
      some { rowA with click_count := rowA.click_count + 1, last_clicked_at := some 9 } ∧
    (∀ t t2, rowA.last_clicked_at = some t →
      ({ rowA with click_count := rowA.click_count + 1,
                   last_clicked_at := some 9 } : UrlRow).last_clicked_at = some t2 →
        t ≤ t2) ∧
    (redirectHandler dbA "abcdef" "agent" "1.2.3.4" 9 .noFault).2.click_logs =
      dbA.click_logs ++ [{ id := dbA.nextClickId, url_id := rowA.id, click_time := 9,
                           user_agent := "agent", ip_address := "1.2.3.4" }] ∧
    ∀ x ∈ dbA.urls, x.id ≠ rowA.id →
      x ∈ (redirectHandler dbA "abcdef" "agent" "1.2.3.4" 9 .noFault).2.urls) :=
  ⟨rfl, redirect_existing_code dbA "abcdef" "agent" "1.2.3.4" 9 rowA rfl
    (fun t ht => by simp [rowA] at ht)⟩

/-- C7: both writes of the redirect handler happen before the 302 is
issued; a failing write yields 500 and no redirect; a failing log
insert leaves the counter already bumped with no matching log row (no
rollback). -/
theorem redirect_write_failure (db : DB) (code ua ip : String) (now : Nat)
    (r : UrlRow) (hr : selectUrlByCode db code = some r) :
    redirectHandler db code ua ip now .failUpdate = (.serverError "Server error", db) ∧
    redirectHandler db code ua ip now .failLog =
      (.serverError "Server error", updateClick db r.id now) ∧
    (Resp.serverError "Server error").status = 500 ∧
    (∀ y, Resp.serverError "Server error" ≠ Resp.redirect302 y) ∧
    (updateClick db r.id now).click_logs = db.click_logs ∧
    selectUrlByCode (updateClick db r.id now) code =
      some { r with click_count := r.click_count + 1, last_clicked_at := some now } ∧
    redirectHandler db code ua ip now .noFault =
      (.redirect302 r.original_url,
       insertClickLog (updateClick db r.id now) r.id ua ip now) := by
  refine ⟨?_, ?_, rfl, ?_, rfl, ?_, ?_⟩
  · simp [redirectHandler, hr]
  · simp [redirectHandler, hr]
  · intro y h
    cases h
  · exact selectUrlByCode_updateClick db code r now hr
  · simp [redirectHandler, hr]

/-- Witness for C7 on the one-row database. -/
theorem redirect_write_failure_witness :
    selectUrlByCode dbA "abcdef" = some rowA ∧
    (redirectHandler dbA "abcdef" "agent" "1.2.3.4" 9 .failUpdate =
       (.serverError "Server error", dbA) ∧
    redirectHandler dbA "abcdef" "agent" "1.2.3.4" 9 .failLog =
      (.serverError "Server error", updateClick dbA rowA.id 9) ∧
    (Resp.serverError "Server error").status = 500 ∧
    (∀ y, Resp.serverError "Server error" ≠ Resp.redirect302 y) ∧
    (updateClick dbA rowA.id 9).click_logs = dbA.click_logs ∧
    selectUrlByCode (updateClick dbA rowA.id 9) "abcdef" =
      some { rowA with click_count := rowA.click_count + 1, last_clicked_at := some 9 } ∧
    redirectHandler dbA "abcdef" "agent" "1.2.3.4" 9 .noFault =
      (.redirect302 rowA.original_url,
       insertClickLog (updateClick dbA rowA.id 9) rowA.id "agent" "1.2.3.4" 9)) :=
  ⟨rfl, redirect_write_failure dbA "abcdef" "agent" "1.2.3.4" 9 rowA rfl⟩

/-! ### C6: delete cascades and leaves the code unknown -/

/-- Under the unique-short_code invariant, the rows matching a found
code are exactly the found row. -/
theorem filter_code_eq_single (l : List UrlRow) (code : String) (m : UrlRow)
    (hN : (l.map (fun r => r.short_code)).Nodup)
    (hf : l.find? (fun r => r.short_code == code) = some m) :
    l.filter (fun r => r.short_code == code) = [m] := by
  induction l with
  | nil => simp at hf
  | cons x xs ih =>
    have hN2 : (xs.map (fun r => r.short_code)).Nodup :=
      (List.nodup_cons.mp (by simpa using hN)).2
    rcases hx : (x.short_code == code) with _ | _
    · rw [List.find?_cons_of_neg _ (by simp [hx])] at hf
      rw [List.filter_cons_of_neg (by simp [hx])]
      exact ih hN2 hf
    · rw [List.find?_cons_of_pos _ (by simp [hx])] at hf
      have hxm : x = m := by injection hf
      subst hxm
      rw [List.filter_cons_of_pos (by simp [hx])]
      have hxc : x.short_code = code := by simpa using hx
      have hnotin : x.short_code ∉ xs.map (fun r => r.short_code) :=
        (List.nodup_cons.mp (by simpa using hN)).1
      have hnil : xs.filter (fun r => r.short_code == code) = [] := by
        rw [List.filter_eq_nil_iff]
        intro a ha hpa
        have hac : a.short_code = code := by simpa using hpa
        exact hnotin (List.mem_map.mpr ⟨a, ha, by rw [hac, hxc]⟩)
      rw [hnil]

/-- C6: delete on an unknown code answers 404 leaving the store
untouched; delete on a known code (under the uniqueness invariant)
answers the confirmation message naming the code, removes exactly the
rows with that code, cascades away exactly the Click Log Entries of
that Mapping, and makes Get and redirect on the code behave as
not-found. -/
theorem delete_spec (db : DB) (code : String)
    (hN : (db.urls.map (fun r => r.short_code)).Nodup) :
    (selectUrlByCode db code = none →
      deleteLink db code = (.notFound "Short code not found", db) ∧
      (Resp.notFound "Short code not found").status = 404) ∧
    (∀ m, selectUrlByCode db code = some m →
      (deleteLink db code).1 =
        .messageOk ("Short code " ++ code ++ " deleted successfully") ∧
      (deleteLink db code).2.urls =
        db.urls.filter (fun r => !(r.short_code == code)) ∧
      (deleteLink db code).2.click_logs =
        db.click_logs.filter (fun l => !(m.id == l.url_id)) ∧
      m ∉ (deleteLink db code).2.urls ∧
      (∀ l ∈ db.click_logs, l.url_id = m.id → l ∉ (deleteLink db code).2.click_logs) ∧
      (∀ l ∈ db.click_logs, l.url_id ≠ m.id → l ∈ (deleteLink db code).2.click_logs) ∧
      selectUrlByCode (deleteLink db code).2 code = none ∧
      getLink (deleteLink db code).2 code =
        (.notFound "Short code not found", (deleteLink db code).2) ∧
      ∀ ua ip now fault, redirectHandler (deleteLink db code).2 code ua ip now fault =
        (.redirect302 "/404", (deleteLink db code).2)) := by
  constructor
  · intro h
    have hall : ∀ r ∈ db.urls, r.short_code ≠ code := selectUrlByCode_eq_none h
    have hret : db.urls.filter (fun r => r.short_code == code) = [] := by
      rw [List.filter_eq_nil_iff]
      intro a ha
      simpa using hall a ha
    have hurls : db.urls.filter (fun r => !(r.short_code == code)) = db.urls := by
      rw [List.filter_eq_self]
      intro a ha
      simpa using hall a ha
    refine ⟨?_, rfl⟩
    simp [deleteLink, hret, hurls]
  · intro m hm
    have hRet : db.urls.filter (fun r => r.short_code == code) = [m] :=
      filter_code_eq_single db.urls code m hN hm
    have hmcode : m.short_code = code := by
      have := List.find?_some hm
      simpa using this
    have hlogs : db.click_logs.filter (fun l =>
        !(List.any [m] (fun r => r.id == l.url_id))) =
        db.click_logs.filter (fun l => !(m.id == l.url_id)) :=
      List.filter_congr (fun a _ => by simp)
    have hDel : deleteLink db code =
        (.messageOk ("Short code " ++ code ++ " deleted successfully"),
         { db with
             urls := db.urls.filter (fun r => !(r.short_code == code)),
             click_logs := db.click_logs.filter (fun l => !(m.id == l.url_id)) }) := by
      simp only [deleteLink, hRet]
      rw [hlogs]
      rfl
    rw [hDel]
    have hsel : selectUrlByCode
        ({ db with
             urls := db.urls.filter (fun r => !(r.short_code == code)),
             click_logs := db.click_logs.filter (fun l => !(m.id == l.url_id)) } : DB)
        code = none := by
      rw [selectUrlByCode, List.find?_eq_none]
      intro x hx
      have := (List.mem_filter.mp hx).2
      simpa using this
    refine ⟨rfl, rfl, rfl, ?_, ?_, ?_, hsel, ?_, ?_⟩
    · intro hmem
      have := (List.mem_filter.mp hmem).2
      simp [hmcode] at this
    · intro l hl hid hmem
      have := (List.mem_filter.mp hmem).2
      simp [hid] at this
    · intro l hl hid
      exact List.mem_filter.mpr ⟨hl, by simpa using fun h => hid h.symm⟩
    · simp [getLink, hsel]
    · intro ua ip now fault
      simp [redirectHandler, hsel]

/-- Witness for C6 on the one-row database and its code `abcdef`. -/
theorem delete_spec_witness :
    (dbA.urls.map (fun r => r.short_code)).Nodup ∧
    selectUrlByCode dbA "abcdef" = some rowA ∧
    ((deleteLink dbA "abcdef").1 =
      .messageOk ("Short code " ++ "abcdef" ++ " deleted successfully") ∧
    (deleteLink dbA "abcdef").2.urls =
      dbA.urls.filter (fun r => !(r.short_code == "abcdef")) ∧
    (deleteLink dbA "abcdef").2.click_logs =
      dbA.click_logs.filter (fun l => !(rowA.id == l.url_id)) ∧
    rowA ∉ (deleteLink dbA "abcdef").2.urls ∧
    (∀ l ∈ dbA.click_logs, l.url_id = rowA.id →
      l ∉ (deleteLink dbA "abcdef").2.click_logs) ∧
    (∀ l ∈ dbA.click_logs, l.url_id ≠ rowA.id →
      l ∈ (deleteLink dbA "abcdef").2.click_logs) ∧
    selectUrlByCode (deleteLink dbA "abcdef").2 "abcdef" = none ∧
    getLink (deleteLink dbA "abcdef").2 "abcdef" =
      (.notFound "Short code not found", (deleteLink dbA "abcdef").2) ∧
    ∀ ua ip now fault, redirectHandler (deleteLink dbA "abcdef").2 "abcdef" ua ip now fault =
      (.redirect302 "/404", (deleteLink dbA "abcdef").2)) :=
  ⟨by decide, rfl, (delete_spec dbA "abcdef" (by decide)).2 rowA rfl⟩

/-! ### C4: the search filter of the List endpoint -/

theorem likeMatch_cons_lit (p : Char) (ps cs : List Char)
    (h1 : p ≠ '%') (h2 : p ≠ '\\') (h3 : p ≠ '_') :
    likeMatch (p :: ps) cs =
      (match cs with
       | [] => false
       | c :: cs2 => p == c && likeMatch ps cs2) := by
  rw [likeMatch.eq_def]
  dsimp only
  rw [if_neg h1, if_neg h2, if_neg h3]

theorem likeMatch_cons_pct (ps cs : List Char) :
    likeMatch ('%' :: ps) cs = suffixAny (fun cs2 => likeMatch ps cs2) cs := by
  rw [likeMatch.eq_def]
  dsimp only
  rw [if_pos rfl]

theorem suffixAny_of_nil_true (f : List Char → Bool) (hf : f [] = true) :
    ∀ cs, suffixAny f cs = true := by
  intro cs
  induction cs with
  | nil => simpa [suffixAny] using hf
  | cons c cs ih => simp [suffixAny, ih]

/-- A meta-character-free literal pattern followed by `%` matches
exactly the strings it starts. -/
theorem likeMatch_lit_pct (t : List Char) (hmeta : t.all metaFree = true) :
    ∀ cs, likeMatch (t ++ ['%']) cs = startsList t cs := by
  induction t with
  | nil =>
    intro cs
    rw [List.nil_append, likeMatch_cons_pct]
    rw [startsList]
    exact suffixAny_of_nil_true _ rfl cs
  | cons a t ih =>
    intro cs
    have hms : metaFree a = true ∧ t.all metaFree = true := by
      simpa [List.all_cons] using hmeta
    have ha : a ≠ '%' ∧ a ≠ '_' ∧ a ≠ '\\' := by
      have := hms.1
      simp [metaFree] at this
      exact ⟨this.1.1, this.1.2, this.2⟩
    rw [List.cons_append,
      likeMatch_cons_lit a (t ++ ['%']) cs ha.1 ha.2.2 ha.2.1]
    cases cs with
    | nil => rfl
    | cons c cs2 =>
      rw [startsList]
      dsimp only
      rw [ih hms.2 cs2]

/-- A `%`-bracketed meta-character-free pattern matches exactly the
strings containing it. -/
theorem likeMatch_pct_lit_pct (t : List Char) (hmeta : t.all metaFree = true) :
    ∀ cs, likeMatch ('%' :: (t ++ ['%'])) cs = subList t cs := by
  intro cs
  rw [likeMatch_cons_pct]
  induction cs with
  | nil =>
    rw [suffixAny, subList, likeMatch_lit_pct t hmeta]
  | cons c cs2 ih =>
    rw [suffixAny, subList, likeMatch_lit_pct t hmeta, ih]

/-- Lowercasing never produces a LIKE meta character from a
non-meta character. -/
theorem metaFree_toLower (c : Char) (h : metaFree c = true) :
    metaFree (Char.toLower c) = true := by
  rw [Char.toLower]
  split
  · rename_i hn
    obtain ⟨ha, hb⟩ := hn
    have ha2 : 65 ≤ c.toNat := ha
    have hb2 : c.toNat ≤ 90 := hb
    generalize c.toNat = n at ha2 hb2
    interval_cases n <;> decide
  · exact h

/-- Matching `ilike` against the percent-bracketed pattern built by
the list endpoint coincides, for meta-character-free search terms,
with case-insensitive substring containment. -/
theorem ilike_pct_pct (hay term : String)
    (hmeta : term.data.all metaFree = true) :
    ilike hay ("%" ++ term ++ "%") = containsCI hay term := by
  have hdata : ("%" ++ term ++ "%").data = '%' :: (term.data ++ ['%']) := by
    rw [String.data_append, String.data_append]
    rfl
  rw [ilike, containsCI, hdata, List.map_cons, List.map_append]
  have hmeta2 : (term.data.map Char.toLower).all metaFree = true := by
    rw [List.all_eq_true]
    intro c hc
    obtain ⟨a, ha, rfl⟩ := List.mem_map.mp hc
    exact metaFree_toLower a (List.all_eq_true.mp hmeta a ha)
  exact likeMatch_pct_lit_pct (term.data.map Char.toLower) hmeta2 _

theorem subList_nil (l : List Char) : subList [] l = true := by
  induction l with
  | nil => rfl
  | cons c cs ih => simp [subList, startsList, ih]

theorem mem_insertDesc (x r : UrlRow) (l : List UrlRow) :
    x ∈ insertDesc r l ↔ x = r ∨ x ∈ l := by
  induction l with
  | nil => simp [insertDesc]
  | cons y ys ih =>
    rw [insertDesc]
    split
    · simp [List.mem_cons]
    · simp only [List.mem_cons, ih]
      tauto

theorem mem_sortDesc (x : UrlRow) (l : List UrlRow) :
    x ∈ sortDesc l ↔ x ∈ l := by
  induction l with
  | nil => simp [sortDesc]
  | cons y ys ih => simp [sortDesc, mem_insertDesc, ih]

theorem pairwise_insertDesc (r : UrlRow) (l : List UrlRow)
    (h : l.Pairwise (fun a b => b.created_at ≤ a.created_at)) :
    (insertDesc r l).Pairwise (fun a b => b.created_at ≤ a.created_at) := by
  induction l with
  | nil => simp [insertDesc]
  | cons y ys ih =>
    rw [insertDesc]
    obtain ⟨hy, hys⟩ := List.pairwise_cons.mp h
    split
    · rename_i hcmp
      refine List.pairwise_cons.mpr ⟨?_, h⟩
      intro z hz
      rcases List.mem_cons.mp hz with rfl | hz
      · exact hcmp
      · exact le_trans (hy z hz) hcmp
    · rename_i hcmp
      refine List.pairwise_cons.mpr ⟨?_, ih hys⟩
      intro z hz
      rcases (mem_insertDesc z r ys).mp hz with rfl | hz
      · omega
      · exact hy z hz

theorem pairwise_sortDesc (l : List UrlRow) :
    (sortDesc l).Pairwise (fun a b => b.created_at ≤ a.created_at) := by
  induction l with
  | nil => simp [sortDesc]
  | cons y ys ih => exact pairwise_insertDesc y (sortDesc ys) ih

/-- C4 (amended): for search terms free of the SQL LIKE meta
characters `%`, `_` and `\`, List returns exactly the Mappings whose
code or URL contains the term case-insensitively, ordered by creation
time descending, and the empty term matches every Mapping. -/
theorem list_search_characterization (db : DB) (term : String)
    (hmeta : term.data.all metaFree = true) :
    ∃ rows, listLinks db (some term) = (Resp.listOk rows, db) ∧
      (∀ m, m ∈ rows ↔ m ∈ db.urls ∧
        (containsCI m.short_code term || containsCI m.original_url term) = true) ∧
      rows.Pairwise (fun a b => b.created_at ≤ a.created_at) ∧
      (∀ hay : String, containsCI hay "" = true) := by
  have hsearch : (if term.isEmpty then "" else term) = term := by
    by_cases h : term.isEmpty
    · rw [if_pos h, ((String.isEmpty_iff term).mp h)]
    · rw [if_neg h]
  refine ⟨sortDesc (db.urls.filter (fun r =>
      ilike r.short_code ("%" ++ term ++ "%") ||
        ilike r.original_url ("%" ++ term ++ "%"))), ?_, ?_, pairwise_sortDesc _, ?_⟩
  · simp only [listLinks]
    rw [hsearch]
  · intro m
    rw [mem_sortDesc, List.mem_filter,
      ilike_pct_pct m.short_code term hmeta,
      ilike_pct_pct m.original_url term hmeta]
  · intro hay
    exact subList_nil (hay.data.map Char.toLower)

/-- Witness for the amended C4: searching `bcd` over the one-row
database. -/
theorem list_search_characterization_witness :
    ("bcd".data.all metaFree = true) ∧
    (∃ rows, listLinks dbA (some "bcd") = (Resp.listOk rows, dbA) ∧
      (∀ m, m ∈ rows ↔ m ∈ dbA.urls ∧
        (containsCI m.short_code "bcd" || containsCI m.original_url "bcd") = true) ∧
      rows.Pairwise (fun a b => b.created_at ≤ a.created_at) ∧
      (∀ hay : String, containsCI hay "" = true)) :=
  ⟨by decide, list_search_characterization dbA "bcd" (by decide)⟩

/-- Counterexample to C4 as stated: the search term `_` (a LIKE
wildcard) selects the row `abcdef` / `https://e.com` although `_` is
not a case-insensitive substring of either field. -/
theorem list_search_counterexample :
    (listLinks dbA (some "_")).1 = Resp.listOk [rowA] ∧
    containsCI rowA.short_code "_" = false ∧
    containsCI rowA.original_url "_" = false := by
  refine ⟨by decide, by decide, by decide⟩

end TinyUrl
